import Mathlib

/-!
A shallow embedding of the naivecoin-golang node core
(packages `transactions`, `txpool`, `utils` and the `blockchain` package),
together with theorems settling the specification claims C1..C10.

Modelling conventions:
* Go `string` is Lean `String`; byte slices produced by hex/base58 codecs are
  also modelled as `String` values.
* Go `int` is `Int`; Go `uint64` values are `Nat`s assumed `< 2^64`, and the
  wrap-around subtraction `a - b` on `uint64` is modelled by `sub64`.
* Go `float64` amounts are modelled as exact rationals (`Rat`); the block
  `Difficulty` field (a `float64` holding small integer values) is modelled
  as `Int`.
* The external crypto primitives (SHA-256 via `utils.Hash`, ECDSA signature
  verification via `utils.VerifySignature`, base58 decoding, and Go's `%f`
  amount formatting used in `TxOut.Content`) are uninterpreted parameters,
  bundled in the structure `Prims`.  Every theorem quantifies over them or
  instantiates them with a concrete mock.
-/

namespace Naivecoin

/-- Wrap-around subtraction on Go `uint64` values (operands assumed `< 2^64`). -/
def sub64 (a b : Nat) : Nat := (a + (2 ^ 64 - b % 2 ^ 64)) % 2 ^ 64

/-- `transactions.TxIn`: an incoming transaction reference. -/
structure TxIn where
  txOutId : String
  txOutIndex : Int
  signature : String
deriving DecidableEq, Inhabited, Repr

/-- `transactions.TxOut`: an outgoing transaction entry. -/
structure TxOut where
  address : String
  amount : Rat
deriving DecidableEq, Inhabited, Repr

/-- `transactions.UnspentTxOut`: an unspent transaction output. -/
structure UnspentTxOut where
  txOutId : String
  txOutIndex : Int
  address : String
  amount : Rat
deriving DecidableEq, Inhabited, Repr

/-- `transactions.Transaction`. -/
structure Transaction where
  id : String
  txIns : List TxIn
  txOuts : List TxOut
deriving DecidableEq, Inhabited, Repr

/-- `blockchain.BlockFields`: required fields of a block.  `Index` and `Nonce`
are Go `int`, `Ts` is `uint64`, `Difficulty` is a `float64` holding integer
values, modelled as `Int`. -/
structure BlockFields where
  index : Int
  prevHash : String
  ts : Nat
  transactions : List Transaction
  difficulty : Int
  nonce : Int
deriving DecidableEq, Inhabited, Repr

/-- `blockchain.Block`. -/
structure Block where
  fields : BlockFields
  hash : String
deriving DecidableEq, Inhabited, Repr

/-- The uninterpreted external primitives used by the core:
`hashStr` is `utils.Hash` applied to the canonical transaction content string,
`hashBlock` is `utils.Hash` applied to a block's fields,
`fmtAmount` is Go's `%f` formatting of a `float64` amount,
`verify` is `utils.VerifySignature`, and `base58Decode` is `utils.Base58Decode`. -/
structure Prims where
  hashStr : String → String
  hashBlock : BlockFields → String
  fmtAmount : Rat → String
  verify : String → String → String → Bool
  base58Decode : String → String

/-- `TxIn.Content`: `fmt.Sprintf("%s;%d", t.TxOutId, t.TxOutIndex)`
(the signature field is left out on purpose). -/
def txInContent (t : TxIn) : String := t.txOutId ++ ";" ++ toString t.txOutIndex

/-- `TxInCollection.Content`: concatenation of the member contents. -/
def txInsContent (l : List TxIn) : String :=
  l.foldl (fun result t => result ++ txInContent t) ""

/-- `TxOut.Content`: `fmt.Sprintf("%s;%f", t.Address, t.Amount)`. -/
def txOutContent (fmtAmount : Rat → String) (t : TxOut) : String :=
  t.address ++ ";" ++ fmtAmount t.amount

/-- `TxOutCollection.Content`: concatenation of the member contents. -/
def txOutsContent (fmtAmount : Rat → String) (l : List TxOut) : String :=
  l.foldl (fun result t => result ++ txOutContent fmtAmount t) ""

/-- `transactions.GetTransactionId`: SHA-256 hash of the transaction contents. -/
def GetTransactionId (P : Prims) (t : Transaction) : String :=
  P.hashStr (txInsContent t.txIns ++ ";" ++ txOutsContent P.fmtAmount t.txOuts)

/-- `transactions.findUnspentTxOut`: first unspent output with the given key,
`none` standing for the Go error return. -/
def findUnspentTxOut (txOutId : String) (txOutIndex : Int)
    (unspentTxOuts_ : List UnspentTxOut) : Option UnspentTxOut :=
  unspentTxOuts_.find? (fun v => decide (v.txOutId = txOutId ∧ v.txOutIndex = txOutIndex))

/-- `transactions.validateTxIn`: the referenced unspent output must exist and the
input's signature must verify against the transaction id under the public key
obtained by base58-decoding the referenced output's address. -/
def validateTxIn (P : Prims) (txIn : TxIn) (transaction : Transaction)
    (unspentTxOuts_ : List UnspentTxOut) : Bool :=
  match findUnspentTxOut txIn.txOutId txIn.txOutIndex unspentTxOuts_ with
  | none => false
  | some referencedUTxOut =>
      P.verify transaction.id txIn.signature (P.base58Decode referencedUTxOut.address)

/-- `transactions.getTxInAmount`: amount of the referenced output, `0` when absent. -/
def getTxInAmount (txIn : TxIn) (unspentTxOuts_ : List UnspentTxOut) : Rat :=
  match findUnspentTxOut txIn.txOutId txIn.txOutIndex unspentTxOuts_ with
  | none => 0
  | some u => u.amount

/-- Total of the amounts referenced by the transaction's inputs
(the accumulation loop of `ValidateTransaction`). -/
def totalTxInValues (t : Transaction) (unspentTxOuts_ : List UnspentTxOut) : Rat :=
  t.txIns.foldl (fun acc i => acc + getTxInAmount i unspentTxOuts_) 0

/-- Total of the transaction's output amounts. -/
def totalTxOutValues (t : Transaction) : Rat :=
  t.txOuts.foldl (fun acc o => acc + o.amount) 0

/-- `transactions.ValidateTransaction`: the Go early-return sequence is the
conjunction of its checks. -/
def ValidateTransaction (P : Prims) (transaction : Transaction)
    (unspentTxOuts_ : List UnspentTxOut) : Bool :=
  decide (GetTransactionId P transaction = transaction.id) &&
  transaction.txIns.all (fun i => validateTxIn P i transaction unspentTxOuts_) &&
  decide (totalTxInValues transaction unspentTxOuts_ = totalTxOutValues transaction)

/-- `transactions.GetCoinbaseTransaction`. -/
def GetCoinbaseTransaction (P : Prims) (base58Address : String) (blockIndex : Int) :
    Transaction :=
  let txIn : TxIn := { txOutId := "", txOutIndex := blockIndex, signature := "" }
  let txOut : TxOut := { address := base58Address, amount := 50 }
  let t : Transaction := { id := "", txIns := [txIn], txOuts := [txOut] }
  { t with id := GetTransactionId P t }

/-- `transactions.validateCoinbaseTx`: consistent id, exactly one input whose
`txOutIndex` is the block height, exactly one output of amount 50. -/
def validateCoinbaseTx (P : Prims) (transaction : Transaction) (blockIndex : Int) : Bool :=
  decide (GetTransactionId P transaction = transaction.id) &&
  decide (transaction.txIns.length = 1) &&
  decide ((transaction.txIns.getD 0 default).txOutIndex = blockIndex) &&
  decide (transaction.txOuts.length = 1) &&
  decide ((transaction.txOuts.getD 0 default).amount = 50)

/-- The hashmap key used by `transactions.hasDuplicateTxIns`:
`txIns[n].TxOutId + fmt.Sprint(txIns[n].TxOutIndex)`. -/
def txInKey (i : TxIn) : String := i.txOutId ++ toString i.txOutIndex

/-- `transactions.hasDuplicateTxIns`: true iff two inputs map to the same key. -/
def hasDuplicateTxIns (txIns : List TxIn) : Bool :=
  ! decide (txIns.map txInKey).Nodup

/-- `transactions.validateBlockTransactions`. -/
def validateBlockTransactions (P : Prims) (transactions : List Transaction)
    (unspentTxOuts_ : List UnspentTxOut) (blockIndex : Int) : Bool :=
  match transactions with
  | [] => false
  | coinbaseTx :: rest =>
      validateCoinbaseTx P coinbaseTx blockIndex &&
      ! hasDuplicateTxIns ((coinbaseTx :: rest).flatMap (fun t => t.txIns)) &&
      rest.all (fun t => ValidateTransaction P t unspentTxOuts_)

/-- `transactions.updateUnspentTxOuts`: remove the consumed outputs from the
unspent list and append the newly produced ones. -/
def updateUnspentTxOuts (transactions : List Transaction)
    (unspentTxOuts_ : List UnspentTxOut) : List UnspentTxOut :=
  let newUnspentTxOuts : List UnspentTxOut :=
    transactions.flatMap (fun t =>
      t.txOuts.enum.map (fun p =>
        { txOutId := t.id, txOutIndex := (p.1 : Int),
          address := p.2.address, amount := p.2.amount }))
  let consumedTxOuts : List UnspentTxOut :=
    transactions.flatMap (fun t =>
      t.txIns.map (fun i =>
        { txOutId := i.txOutId, txOutIndex := i.txOutIndex, address := "", amount := 0 }))
  (unspentTxOuts_.filter (fun u =>
    (findUnspentTxOut u.txOutId u.txOutIndex consumedTxOuts).isNone)) ++ newUnspentTxOuts

/-- `transactions.ProcessTransactions`. -/
def ProcessTransactions (P : Prims) (transactions : List Transaction)
    (unspentTxOuts_ : List UnspentTxOut) (blockIndex : Int) :
    Except String (List UnspentTxOut) :=
  if ¬ validateBlockTransactions P transactions unspentTxOuts_ blockIndex then
    .error "invalid block transactions"
  else
    .ok (updateUnspentTxOuts transactions unspentTxOuts_)

/-! ## The `blockchain` package -/

/-- `blockchain.GenesisTransaction` (hard-coded). -/
def GenesisTransaction : Transaction :=
  { id := "62530d1bbbf4f75200448207cbc3c84b4b67fe7a85eddf6f5c3e4bbac4461b82",
    txIns := [{ txOutId := "", txOutIndex := 0, signature := "" }],
    txOuts := [{ address := "S7H2fmjGPxznuu9NPcnYCyEqdg1ebSbMN6AJRqQQo4Z1D1yQdKwEGwiJezSDka6yqHDSb2jqaf3Tewg1tryEbDzG",
                 amount := 50 }] }

/-- `blockchain.GenesisBlock` (hard-coded; the unset Go fields are zero values). -/
def GenesisBlock : Block :=
  { fields := { index := 0, prevHash := "", ts := 0,
                transactions := [GenesisTransaction], difficulty := 0, nonce := 0 },
    hash := "fbf56e4cc6a37936341c07f2d452ee01c93a1bb30d0bfe219d3d2af1cf38f78b" }

/-- The binary expansion of one hex character per `utils.hexDict`
(characters outside the dictionary contribute the empty string, as a Go
map lookup of a missing key yields the zero value). -/
def hexCharToBin (c : Char) : String :=
  if c = '0' then "0000" else if c = '1' then "0001"
  else if c = '2' then "0010" else if c = '3' then "0011"
  else if c = '4' then "0100" else if c = '5' then "0101"
  else if c = '6' then "0110" else if c = '7' then "0111"
  else if c = '8' then "1000" else if c = '9' then "1001"
  else if c = 'a' then "1010" else if c = 'b' then "1011"
  else if c = 'c' then "1100" else if c = 'd' then "1101"
  else if c = 'e' then "1110" else if c = 'f' then "1111"
  else ""

/-- `utils.HexToBin` (lower-cases, then maps each character). -/
def hexToBin (hex : String) : String :=
  hex.toLower.data.foldl (fun result c => result ++ hexCharToBin c) ""

/-- `blockchain.hashMatchesDifficulty`: the binary expansion of the hash must
start with `difficulty` zero bits.  (`int(difficulty)` truncation of the Go
`float64` is `Int.toNat` here; Go would panic on a negative repeat count.) -/
def hashMatchesDifficulty (hash : String) (difficulty : Int) : Bool :=
  let hashInBinary := hexToBin hash
  (List.replicate difficulty.toNat '0').isPrefixOf hashInBinary.data

/-- `blockchain.getAdjustedDifficulty`.  The `uint64` subtraction
`latestBlock.Ts - prevAdjustmentBlock.Ts` is the wrap-around `sub64`;
out-of-range chain indexing (a Go panic) is modelled by `List.getD`. -/
def getAdjustedDifficulty (blockchain_ : List Block) (latestBlock : Block) : Int :=
  if latestBlock.fields.index + 1 < 10 then 0
  else
    let prevAdjustmentBlock : Block :=
      blockchain_.getD (latestBlock.fields.index + 1 - 10).toNat default
    let timeExpected : Nat := 10 * 10
    let timeTaken : Nat := sub64 latestBlock.fields.ts prevAdjustmentBlock.fields.ts
    if timeTaken < timeExpected / 2 then prevAdjustmentBlock.fields.difficulty + 1
    else if timeTaken > timeExpected * 2 then
      let temp := prevAdjustmentBlock.fields.difficulty - 1
      if temp < 0 then 0 else temp
    else prevAdjustmentBlock.fields.difficulty

/-- `blockchain.getDifficulty`. -/
def getDifficulty (blockchain_ : List Block) (latestBlock : Block) : Int :=
  let adjustmentIntervalIsReached := latestBlock.fields.index % 10 = 0
  let isGenesisBlock := latestBlock.fields.index = 0
  if adjustmentIntervalIsReached ∧ ¬ isGenesisBlock then
    getAdjustedDifficulty blockchain_ latestBlock
  else latestBlock.fields.difficulty

/-- The timestamp rule inside `blockchain.IsValidBlock` (lines 268-275):
skipped when the previous block is the genesis block, otherwise the block is
rejected when `prevBlock.Ts - 60 >= block.Ts` or `block.Ts - 60 >= now`,
both subtractions being wrap-around `uint64` subtractions. -/
def timestampCheck (prevBlock block : Block) (now : Nat) : Bool :=
  let prevBlockIsGenesisBlock := decide (prevBlock.fields.index = 0)
  let olderThanPrevBlock := decide (sub64 prevBlock.fields.ts 60 ≥ block.fields.ts)
  let farInTheFuture := decide (sub64 block.fields.ts 60 ≥ now)
  ! (! prevBlockIsGenesisBlock && (olderThanPrevBlock || farInTheFuture))

/-- `blockchain.IsValidBlock` (`now` is the `time.Now().Unix()` reading). -/
def IsValidBlock (P : Prims) (blockchain_ : List Block) (prevBlock block : Block)
    (now : Nat) : Bool :=
  decide (prevBlock.fields.index + 1 = block.fields.index) &&
  decide (prevBlock.hash = block.fields.prevHash) &&
  decide (P.hashBlock block.fields = block.hash) &&
  timestampCheck prevBlock block now &&
  decide (getDifficulty blockchain_ prevBlock = block.fields.difficulty) &&
  hashMatchesDifficulty block.hash block.fields.difficulty

/-- `blockchain.GetCumulativeDifficulty`: `Σ math.Pow(2, difficulty)` as a
`float64`, cast to `uint64` — modelled as the floor of the exact rational sum,
reduced mod `2^64`. -/
def GetCumulativeDifficulty (blockchain_ : List Block) : Nat :=
  ((blockchain_.foldl (fun result b => result + (2 : Rat) ^ b.fields.difficulty) 0).floor.toNat)
    % 2 ^ 64

/-- Go's `if err != nil { return ..., err }` propagation after a
`ProcessTransactions` call: stop on error, continue on success. -/
def exceptStep {ε α β : Type} (r : Except ε α) (f : α → Except ε β) : Except ε β :=
  match r with
  | .error e => .error e
  | .ok u => f u

theorem exceptStep_ok {ε α β : Type} (u : α) (f : α → Except ε β) :
    exceptStep (.ok u) f = f u := rfl

theorem exceptStep_error {ε α β : Type} (e : ε) (f : α → Except ε β) :
    exceptStep (Except.error e) f = .error e := rfl

/-- The block-processing loop of `blockchain.IsValidBlockChain` from index 1 on:
`prev` is the predecessor of the first block of the remaining list. -/
def validateChainFrom (P : Prims) (blockchain_ : List Block) (now : Nat) :
    List Block → Block → List UnspentTxOut → Except String (List UnspentTxOut)
  | [], _, u => .ok u
  | b :: rest, prev, u =>
      if ¬ IsValidBlock P blockchain_ prev b now then .error "blockchain is invalid"
      else
        exceptStep (ProcessTransactions P b.fields.transactions u b.fields.index)
          (validateChainFrom P blockchain_ now rest b)

/-- `blockchain.IsValidBlockChain`: the first block must equal the hard-coded
genesis block, every later block must validate against its predecessor, and
processing the transactions block by block from the empty unspent list must
succeed; the terminal unspent list is returned.  (Go would panic on an empty
chain when reading `blockchain_[0]`; that case is mapped to an error.) -/
def IsValidBlockChain (P : Prims) (blockchain_ : List Block) (now : Nat) :
    Except String (List UnspentTxOut) :=
  match blockchain_ with
  | [] => .error "blockchain is invalid"
  | g :: rest =>
      if g ≠ GenesisBlock then .error "blockchain is invalid"
      else
        exceptStep (ProcessTransactions P g.fields.transactions [] g.fields.index)
          (validateChainFrom P blockchain_ now rest g)

/-! ## The `txpool` package -/

/-- `txpool.hasTxIn`. -/
def hasTxIn (txIn : TxIn) (unspentTxOuts : List UnspentTxOut) : Bool :=
  unspentTxOuts.any (fun u => decide (u.txOutId = txIn.txOutId ∧ u.txOutIndex = txIn.txOutIndex))

/-- `txpool.UpdateTransactionPool`: retain only the pool transactions all of
whose inputs still reference an unspent output. -/
def UpdateTransactionPool (unspentTxOuts_ : List UnspentTxOut)
    (txPool : List Transaction) : List Transaction :=
  txPool.filter (fun t => t.txIns.all (fun i => hasTxIn i unspentTxOuts_))

/-- `txpool.containsTxIn`. -/
def containsTxIn (txIns : List TxIn) (txIn : TxIn) : Bool :=
  txIns.any (fun j => decide (j.txOutId = txIn.txOutId ∧ j.txOutIndex = txIn.txOutIndex))

/-- `txpool.getTxPoolIns`. -/
def getTxPoolIns (txPool_ : List Transaction) : List TxIn :=
  txPool_.flatMap (fun t => t.txIns)

/-- `txpool.isValidTxForPool`: no input of the candidate may already occur
among the pool's inputs. -/
def isValidTxForPool (tx : Transaction) (txPool_ : List Transaction) : Bool :=
  tx.txIns.all (fun i => ! containsTxIn (getTxPoolIns txPool_) i)

/-- `txpool.AddToTransactionPool`: the Go function mutates the global pool and
returns an error; modelled as returning the new pool together with the
optional error. -/
def AddToTransactionPool (P : Prims) (tx : Transaction)
    (unspentTxOuts : List UnspentTxOut) (txPool : List Transaction) :
    List Transaction × Option String :=
  if ¬ ValidateTransaction P tx unspentTxOuts then
    (txPool, some "trying to add invalid tx to pool")
  else if ¬ isValidTxForPool tx txPool then
    (txPool, some "trying to add invalid tx to pool")
  else (txPool ++ [tx], none)

/-! ## Global ledger state and the chain-mutating operations -/

/-- The package-level mutable state of the `blockchain` package:
`blockchain`, `cumulativeBlocksDifficulty`, `unspentTxOuts` and the
`txpool` package's `txPool`. -/
structure GState where
  blockchain : List Block
  cumulativeBlocksDifficulty : Nat
  unspentTxOuts : List UnspentTxOut
  txPool : List Transaction
deriving Inhabited

/-- `blockchain.GetLatestBlock`. -/
def GetLatestBlock (st : GState) : Block :=
  st.blockchain.getD (st.blockchain.length - 1) default

/-- `blockchain.AddBlockToChain`: validate the block against the current tip,
process its transactions, and on success append it, bump the cached cumulative
difficulty by `uint64(math.Pow(2, difficulty))`, install the new unspent list
and refresh the pool. -/
def AddBlockToChain (P : Prims) (now : Nat) (newBlock : Block) (st : GState) :
    Bool × GState :=
  if IsValidBlock P st.blockchain (GetLatestBlock st) newBlock now then
    match ProcessTransactions P newBlock.fields.transactions st.unspentTxOuts
        newBlock.fields.index with
    | .error _ => (false, st)
    | .ok retVal =>
        (true,
         { blockchain := st.blockchain ++ [newBlock],
           cumulativeBlocksDifficulty :=
             (st.cumulativeBlocksDifficulty +
               ((2 : Rat) ^ newBlock.fields.difficulty).floor.toNat) % 2 ^ 64,
           unspentTxOuts := retVal,
           txPool := UpdateTransactionPool retVal st.txPool })
  else (false, st)

/-- `blockchain.ReplaceChain`: validate the candidate chain, lazily initialise
the cached cumulative difficulty (`0` means "not yet computed"), and replace
the local chain only when the candidate's cumulative difficulty exceeds the
cached value. -/
def ReplaceChain (P : Prims) (now : Nat) (newBlocks : List Block) (st : GState) :
    GState × Option String :=
  match IsValidBlockChain P newBlocks now with
  | .error _ => (st, some "received blockchain invalid")
  | .ok unspentTxOuts_ =>
      let cached : Nat :=
        if st.cumulativeBlocksDifficulty = 0 then GetCumulativeDifficulty st.blockchain
        else st.cumulativeBlocksDifficulty
      let newCumulativeBlocksDifficulty := GetCumulativeDifficulty newBlocks
      if cached ≥ newCumulativeBlocksDifficulty then
        ({ st with cumulativeBlocksDifficulty := cached }, some "received blockchain invalid")
      else
        ({ blockchain := newBlocks,
           cumulativeBlocksDifficulty := newCumulativeBlocksDifficulty,
           unspentTxOuts := unspentTxOuts_,
           txPool := UpdateTransactionPool unspentTxOuts_ st.txPool }, none)

/-- The initial value of the package-level `unspentTxOuts` variable:
`tx.ProcessTransactions(blockchain[0].Fields.Transactions, [], 0)` with the
error ignored (the empty list is kept on error). -/
def initialUnspentTxOuts (P : Prims) : List UnspentTxOut :=
  match ProcessTransactions P GenesisBlock.fields.transactions [] 0 with
  | .ok u => u
  | .error _ => []

/-- The start-up state of a fresh node. -/
def initialState (P : Prims) : GState :=
  { blockchain := [GenesisBlock],
    cumulativeBlocksDifficulty := 0,
    unspentTxOuts := initialUnspentTxOuts P,
    txPool := [] }

/-! ## `utils.VerifySignature` (for claim C9) -/

/-- The external pieces `utils.VerifySignature` is built from:
`hexDecode` is `hex.DecodeString` (with its error ignored, as in the source),
`asn1Unmarshal` is `asn1.Unmarshal` into the `(R, S)` signature struct, with
`none` standing for a decoding error on malformed DER, and `ecdsaVerify` is
`ecdsa.Verify` on the secp256k1 public key parsed from the hex string. -/
structure CryptoLib where
  hexDecode : String → String
  asn1Unmarshal : String → Option (Int × Int)
  ecdsaVerify : String → String → Int → Int → Bool

/-- `utils.VerifySignature`: decode the hex signature, unmarshal it as ASN.1
DER, and only call `ecdsa.Verify` when unmarshalling succeeded; malformed DER
yields `false`. -/
def VerifySignature (C : CryptoLib) (hash sig publicKeyHex : String) : Bool :=
  let hashBytes := C.hexDecode hash
  let sigBytes := C.hexDecode sig
  match C.asn1Unmarshal sigBytes with
  | some (r, s) => C.ecdsaVerify publicKeyHex hashBytes r s
  | none => false

/-! ## Helper lemmas -/

theorem sub64_eq_sub (a b : Nat) (hle : b ≤ a) (hlt : a < 2 ^ 64) :
    sub64 a b = a - b := by
  have h64 : (2 : Nat) ^ 64 = 18446744073709551616 := by norm_num
  unfold sub64
  rw [h64] at hlt ⊢
  omega

theorem foldl_add_eq_sum {α : Type} (f : α → Rat) (l : List α) (c : Rat) :
    l.foldl (fun acc x => acc + f x) c = c + (l.map f).sum := by
  induction l generalizing c with
  | nil => simp
  | cons a l ih => simp [ih, add_assoc]

theorem totalTxInValues_eq_sum (t : Transaction) (u : List UnspentTxOut) :
    totalTxInValues t u = (t.txIns.map (fun i => getTxInAmount i u)).sum := by
  unfold totalTxInValues
  rw [foldl_add_eq_sum, zero_add]

theorem totalTxOutValues_eq_sum (t : Transaction) :
    totalTxOutValues t = (t.txOuts.map TxOut.amount).sum := by
  unfold totalTxOutValues
  rw [show (fun (acc : Rat) (o : TxOut) => acc + o.amount)
        = (fun (acc : Rat) (o : TxOut) => acc + TxOut.amount o) from rfl,
      foldl_add_eq_sum TxOut.amount, zero_add]

/-! ## Claim C9 -/

/-- **C9.** For every message, public key and signature string — including
signature strings whose decoded bytes are not well-formed ASN.1 DER (the
`asn1Unmarshal` component returns `none` on them) — `utils.VerifySignature`
returns `false` rather than faulting.  Totality of the Lean function models
the absence of a fault; the guarded unmarshal models the error check that the
source inserts precisely to avoid the crash in `ecdsa.Verify`. -/
theorem c9_verify_malformed_der (C : CryptoLib) (hash sig publicKeyHex : String)
    (h : C.asn1Unmarshal (C.hexDecode sig) = none) :
    VerifySignature C hash sig publicKeyHex = false := by
  simp [VerifySignature, h]

/-- A concrete crypto library whose DER unmarshaller rejects everything. -/
def rejectAllCryptoLib : CryptoLib :=
  { hexDecode := fun s => s,
    asn1Unmarshal := fun _ => none,
    ecdsaVerify := fun _ _ _ _ => true }

/-- Witness for C9 at a concrete input. -/
theorem c9_witness :
    rejectAllCryptoLib.asn1Unmarshal (rejectAllCryptoLib.hexDecode "zz") = none ∧
    VerifySignature rejectAllCryptoLib "ab01" "zz" "04ff" = false :=
  ⟨rfl, c9_verify_malformed_der rejectAllCryptoLib "ab01" "zz" "04ff" rfl⟩

/-! ## Claim C10 -/

/-- **C10.** For every address string and block index, the coinbase transaction
built by `GetCoinbaseTransaction` is accepted by `validateCoinbaseTx` at the
same index: its id is consistent, it has exactly one input carrying the index,
and exactly one output of amount 50. -/
theorem c10_coinbase_accepted (P : Prims) (base58Address : String) (blockIndex : Int) :
    validateCoinbaseTx P (GetCoinbaseTransaction P base58Address blockIndex) blockIndex
      = true := by
  simp [validateCoinbaseTx, GetCoinbaseTransaction, GetTransactionId]

/-! ## Claim C2 -/

/-- The required-difficulty function exactly as claim C2 states it: the
retarget fires when `P.index > 0` and `(P.index + 1) mod 10 == 0`, with
`R = C[P.index + 1 - 10]` and `elapsed = P.ts - R.ts`. -/
def requiredDifficultyClaim (c : List Block) (p : Block) : Int :=
  if p.fields.index > 0 ∧ (p.fields.index + 1) % 10 = 0 then
    let r := c.getD (p.fields.index + 1 - 10).toNat default
    let elapsed : Nat := p.fields.ts - r.fields.ts
    if elapsed < 50 then r.fields.difficulty + 1
    else if elapsed > 200 then max 0 (r.fields.difficulty - 1)
    else r.fields.difficulty
  else p.fields.difficulty

/-- The required-difficulty function as amended: identical to the claim except
that the retarget fires when `P.index > 0` and `P.index mod 10 == 0` (the
source checks `latestBlock.Index % 10 == 0`, not `(Index + 1) % 10 == 0`). -/
def requiredDifficultyAmended (c : List Block) (p : Block) : Int :=
  if p.fields.index > 0 ∧ p.fields.index % 10 = 0 then
    let r := c.getD (p.fields.index + 1 - 10).toNat default
    let elapsed : Nat := p.fields.ts - r.fields.ts
    if elapsed < 50 then r.fields.difficulty + 1
    else if elapsed > 200 then max 0 (r.fields.difficulty - 1)
    else r.fields.difficulty
  else p.fields.difficulty

/-- A one-block context whose window-opening block has difficulty 5. -/
def c2Chain : List Block :=
  [{ fields := { index := 0, prevHash := "", ts := 0, transactions := [],
                 difficulty := 5, nonce := 0 }, hash := "h0" }]

/-- A tip of index 9: the claim's trigger `(9 + 1) % 10 == 0` fires, the
code's trigger `9 % 10 == 0` does not. -/
def c2Tip : Block :=
  { fields := { index := 9, prevHash := "", ts := 10, transactions := [],
                difficulty := 3, nonce := 0 }, hash := "h9" }

/-- **C2, counterexample.** At a tip of index 9 the code returns the tip's
difficulty (3) while the claim's formula retargets and returns
`R.difficulty + 1 = 6`: the claim as stated is false on the code. -/
theorem c2_counterexample :
    getDifficulty c2Chain c2Tip = 3 ∧ requiredDifficultyClaim c2Chain c2Tip = 6 ∧
    getDifficulty c2Chain c2Tip ≠ requiredDifficultyClaim c2Chain c2Tip := by
  refine ⟨by decide, by decide, by decide⟩

/-- **C2, amended.** With the retarget trigger corrected to
`P.index > 0 ∧ P.index % 10 == 0` the claim holds: for every chain and tip
with a non-negative index whose timestamps do not wrap the `uint64`
subtraction, `getDifficulty` computes exactly the claimed formula, including
`+1` below 50 elapsed seconds, `max(0, -1)` above 200, and no change at
exactly 50 or exactly 200. -/
theorem c2_amended (c : List Block) (p : Block)
    (hidx : 0 ≤ p.fields.index)
    (hts : (c.getD (p.fields.index + 1 - 10).toNat default).fields.ts ≤ p.fields.ts)
    (hlt : p.fields.ts < 2 ^ 64) :
    getDifficulty c p = requiredDifficultyAmended c p := by
  simp only [getDifficulty, requiredDifficultyAmended, getAdjustedDifficulty]
  by_cases htrig : p.fields.index % 10 = 0 ∧ ¬ p.fields.index = 0
  · obtain ⟨hmod, hne⟩ := htrig
    have hge : (10 : Int) ≤ p.fields.index := by omega
    have hsrc : p.fields.index % 10 = 0 ∧ ¬ p.fields.index = 0 := ⟨hmod, hne⟩
    have hclaim : p.fields.index > 0 ∧ p.fields.index % 10 = 0 := ⟨by omega, hmod⟩
    have hguard : ¬ (p.fields.index + 1 < 10) := by omega
    rw [if_pos hsrc, if_pos hclaim, if_neg hguard]
    rw [sub64_eq_sub _ _ hts hlt]
    have hmax : ∀ d : Int, (if d - 1 < 0 then 0 else d - 1) = max 0 (d - 1) := by
      intro d
      rw [max_def]
      split_ifs <;> omega
    rw [hmax]
  · rw [if_neg htrig, if_neg (show ¬ (p.fields.index > 0 ∧ p.fields.index % 10 = 0) by omega)]

/-- A tip of index 10 for the C2 witness: the corrected trigger fires and the
window elapsed 10 seconds, so the difficulty steps up by one. -/
def c2Tip10 : Block :=
  { fields := { index := 10, prevHash := "", ts := 10, transactions := [],
                difficulty := 3, nonce := 0 }, hash := "h10" }

/-- Witness for the amended C2 at a concrete input. -/
theorem c2_amended_witness :
    (0 : Int) ≤ c2Tip10.fields.index ∧
    (c2Chain.getD (c2Tip10.fields.index + 1 - 10).toNat default).fields.ts
      ≤ c2Tip10.fields.ts ∧
    c2Tip10.fields.ts < 2 ^ 64 ∧
    getDifficulty c2Chain c2Tip10 = requiredDifficultyAmended c2Chain c2Tip10 :=
  ⟨by decide, by decide, by decide,
   c2_amended c2Chain c2Tip10 (by decide) (by decide) (by decide)⟩

/-! ## Claim C3 -/

/-- A non-genesis predecessor with timestamp 100. -/
def c3Prev : Block :=
  { fields := { index := 1, prevHash := "", ts := 100, transactions := [],
                difficulty := 0, nonce := 0 }, hash := "hp" }

/-- A block with timestamp exactly `P.ts - 60`. -/
def c3Blk : Block :=
  { fields := { index := 2, prevHash := "", ts := 40, transactions := [],
                difficulty := 0, nonce := 0 }, hash := "hb" }

/-- **C3, counterexample.** At `B.ts = P.ts - 60` (and `B.ts ≤ now + 60`) the
claim accepts the block, but the code's timestamp rule rejects it: the bound
`B.ts ≥ P.ts - 60` claimed is in fact strict in the source
(`prevBlock.Ts - 60 >= block.Ts` rejects). -/
theorem c3_counterexample :
    c3Prev.fields.index ≠ 0 ∧
    c3Prev.fields.ts - 60 ≤ c3Blk.fields.ts ∧
    c3Blk.fields.ts ≤ 100 + 60 ∧
    timestampCheck c3Prev c3Blk 100 = false := by
  refine ⟨by decide, by decide, by decide, by decide⟩

/-- **C3, amended.** For a non-genesis predecessor the timestamp check accepts
`B` iff `B.ts > P.ts - 60` and `B.ts < now + 60` (strict bounds, i.e.
`B.ts ≥ P.ts - 59` and `B.ts ≤ now + 59`), provided the `uint64`
subtractions do not wrap (`P.ts, B.ts ≥ 60` and below `2^64`); when `P` is
the genesis block the check is skipped entirely. -/
theorem c3_amended (prevBlock block : Block) (now : Nat) :
    (prevBlock.fields.index = 0 → timestampCheck prevBlock block now = true) ∧
    (prevBlock.fields.index ≠ 0 → 60 ≤ prevBlock.fields.ts → 60 ≤ block.fields.ts →
      prevBlock.fields.ts < 2 ^ 64 → block.fields.ts < 2 ^ 64 →
      (timestampCheck prevBlock block now = true ↔
        (prevBlock.fields.ts - 60 < block.fields.ts ∧ block.fields.ts < now + 60))) := by
  constructor
  · intro h
    simp [timestampCheck, h]
  · intro hne h1 h2 h3 h4
    simp only [timestampCheck]
    rw [sub64_eq_sub _ _ h1 h3, sub64_eq_sub _ _ h2 h4]
    simp [hne]
    omega

/-- A non-genesis predecessor with timestamp 200, for the C3 witness. -/
def c3Prev200 : Block :=
  { fields := { index := 1, prevHash := "", ts := 200, transactions := [],
                difficulty := 0, nonce := 0 }, hash := "hp200" }

/-- A block one second inside the lower bound of `c3Prev200`. -/
def c3Blk141 : Block :=
  { fields := { index := 2, prevHash := "", ts := 141, transactions := [],
                difficulty := 0, nonce := 0 }, hash := "hb141" }

/-- Witness for the amended C3 at a concrete input. -/
theorem c3_amended_witness :
    c3Prev200.fields.index ≠ 0 ∧
    (timestampCheck c3Prev200 c3Blk141 100 = true ↔
      (c3Prev200.fields.ts - 60 < c3Blk141.fields.ts ∧ c3Blk141.fields.ts < 100 + 60)) :=
  ⟨by decide,
   (c3_amended c3Prev200 c3Blk141 100).2 (by decide) (by decide) (by decide)
     (by decide) (by decide)⟩

/-! ## Claim C5 -/

theorem findUnspentTxOut_eq_none_iff (a : String) (b : Int) (l : List UnspentTxOut) :
    findUnspentTxOut a b l = none ↔ ∀ v ∈ l, ¬ (v.txOutId = a ∧ v.txOutIndex = b) := by
  unfold findUnspentTxOut
  rw [List.find?_eq_none]
  simp

theorem consumed_lookup_isNone (txs : List Transaction) (a : String) (b : Int) :
    (findUnspentTxOut a b (txs.flatMap (fun t => t.txIns.map (fun i =>
        ({ txOutId := i.txOutId, txOutIndex := i.txOutIndex,
           address := "", amount := 0 } : UnspentTxOut))))).isNone
      = ! txs.any (fun t => t.txIns.any (fun i =>
          decide (i.txOutId = a ∧ i.txOutIndex = b))) := by
  rw [Bool.eq_iff_iff]
  simp only [Option.isNone_iff_eq_none, findUnspentTxOut_eq_none_iff,
    List.mem_flatMap, List.mem_map, Bool.not_eq_true', List.any_eq_false,
    decide_eq_false_iff_not]
  constructor
  · intro h t ht hcon
    rw [List.any_eq_true] at hcon
    obtain ⟨i, hi, hdec⟩ := hcon
    rw [decide_eq_true_eq] at hdec
    exact h _ ⟨t, ht, i, hi, rfl⟩ hdec
  · rintro h v ⟨t, ht, i, hi, rfl⟩ hdec
    have := h t ht
    rw [List.any_eq_true] at this
    exact this ⟨i, hi, by rw [decide_eq_true_eq]; exact hdec⟩

/-- **C5.** `ProcessTransactions` first runs `validateBlockTransactions`; on
failure it returns an error, and on success it returns exactly the input
unspent set minus every output whose `(txOutId, txOutIndex)` is referenced by
some input of some transaction of the block, plus one new unspent output
`(tx.id, j, out.address, out.amount)` for every transaction `tx` and every
position `j` of an output `out` of `tx`. -/
theorem c5_process_transactions (P : Prims) (txs : List Transaction)
    (u : List UnspentTxOut) (blockIndex : Int) :
    ProcessTransactions P txs u blockIndex =
      if validateBlockTransactions P txs u blockIndex then
        .ok ((u.filter (fun x => ! txs.any (fun t => t.txIns.any (fun i =>
              decide (i.txOutId = x.txOutId ∧ i.txOutIndex = x.txOutIndex))))) ++
             txs.flatMap (fun t => t.txOuts.enum.map (fun p =>
               ({ txOutId := t.id, txOutIndex := (p.1 : Int),
                  address := p.2.address, amount := p.2.amount } : UnspentTxOut))))
      else .error "invalid block transactions" := by
  unfold ProcessTransactions
  by_cases hv : validateBlockTransactions P txs u blockIndex = true
  · rw [if_neg (by simp [hv]), if_pos hv]
    simp only [updateUnspentTxOuts]
    congr 1
    congr 1
    apply List.filter_congr
    intro x _
    exact consumed_lookup_isNone txs x.txOutId x.txOutIndex
  · rw [if_pos (by simp [Bool.not_eq_true] at hv ⊢; exact hv), if_neg hv]

/-! ## Claim C4 -/

/-- The UTXO-set well-formedness invariant of the spec's data model:
`(txOutId, txOutIndex)` is unique across the collection. -/
def utxoKeysUnique (u : List UnspentTxOut) : Prop :=
  u.Pairwise (fun a b => ¬ (a.txOutId = b.txOutId ∧ a.txOutIndex = b.txOutIndex))

theorem validateTxIn_iff (P : Prims) (i : TxIn) (t : Transaction) :
    ∀ u : List UnspentTxOut, utxoKeysUnique u →
      (validateTxIn P i t u = true ↔
        ∃ v ∈ u, v.txOutId = i.txOutId ∧ v.txOutIndex = i.txOutIndex ∧
          P.verify t.id i.signature (P.base58Decode v.address) = true) := by
  intro u
  induction u with
  | nil => intro _; simp [validateTxIn, findUnspentTxOut]
  | cons a l ih =>
    intro hu
    obtain ⟨ha, hl⟩ := List.pairwise_cons.mp hu
    by_cases hmatch : a.txOutId = i.txOutId ∧ a.txOutIndex = i.txOutIndex
    · unfold validateTxIn findUnspentTxOut
      rw [List.find?_cons_of_pos _ (by simpa using hmatch)]
      constructor
      · intro hv
        exact ⟨a, List.mem_cons_self a l, hmatch.1, hmatch.2, hv⟩
      · rintro ⟨v, hvmem, h1, h2, h3⟩
        rcases List.mem_cons.mp hvmem with rfl | hvl
        · exact h3
        · exact absurd ⟨hmatch.1.trans h1.symm, hmatch.2.trans h2.symm⟩ (ha v hvl)
    · have hstep : validateTxIn P i t (a :: l) = validateTxIn P i t l := by
        unfold validateTxIn findUnspentTxOut
        rw [List.find?_cons_of_neg _ (by simpa using hmatch)]
      rw [hstep, ih hl]
      constructor
      · rintro ⟨v, hvl, hrest⟩
        exact ⟨v, List.mem_cons_of_mem a hvl, hrest⟩
      · rintro ⟨v, hvmem, h1, h2, h3⟩
        rcases List.mem_cons.mp hvmem with rfl | hvl
        · exact absurd ⟨h1, h2⟩ hmatch
        · exact ⟨v, hvl, h1, h2, h3⟩

/-- **C4.** Against a well-formed UTXO set (unique `(txOutId, txOutIndex)`
keys, the spec's data-model invariant), `ValidateTransaction` succeeds iff
the recomputed id equals `tx.id`, every input references an unspent output
with matching key whose address verifies the input's signature over `tx.id`,
and the sum of the referenced amounts equals the sum of the output amounts
exactly. -/
theorem c4_validate_transaction (P : Prims) (t : Transaction) (u : List UnspentTxOut)
    (hu : utxoKeysUnique u) :
    ValidateTransaction P t u = true ↔
      (GetTransactionId P t = t.id ∧
       (∀ i ∈ t.txIns, ∃ v ∈ u, v.txOutId = i.txOutId ∧ v.txOutIndex = i.txOutIndex ∧
          P.verify t.id i.signature (P.base58Decode v.address) = true) ∧
       (t.txIns.map (fun i => getTxInAmount i u)).sum = (t.txOuts.map TxOut.amount).sum) := by
  unfold ValidateTransaction
  simp only [Bool.and_eq_true, decide_eq_true_eq, List.all_eq_true]
  rw [totalTxInValues_eq_sum, totalTxOutValues_eq_sum]
  constructor
  · rintro ⟨⟨h1, h2⟩, h3⟩
    exact ⟨h1, fun i hi => (validateTxIn_iff P i t u hu).mp (h2 i hi), h3⟩
  · rintro ⟨h1, h2, h3⟩
    exact ⟨⟨h1, fun i hi => (validateTxIn_iff P i t u hu).mpr (h2 i hi)⟩, h3⟩

/-- A concrete primitive set for the C4 witness: the hash of every content
string is `"TID"` and every signature verifies. -/
def c4Prims : Prims :=
  { hashStr := fun _ => "TID", hashBlock := fun _ => "BH",
    fmtAmount := fun q => toString q, verify := fun _ _ _ => true,
    base58Decode := fun s => s }

/-- A singleton UTXO set for the C4 witness. -/
def c4U : List UnspentTxOut := [{ txOutId := "prev", txOutIndex := 0, address := "OWNER", amount := 7 }]

/-- A transaction spending `c4U` for the C4 witness. -/
def c4T : Transaction :=
  { id := "TID", txIns := [{ txOutId := "prev", txOutIndex := 0, signature := "sig" }],
    txOuts := [{ address := "DEST", amount := 7 }] }

/-- Witness for C4 at a concrete input. -/
theorem c4_witness :
    utxoKeysUnique c4U ∧
    (ValidateTransaction c4Prims c4T c4U = true ↔
      (GetTransactionId c4Prims c4T = c4T.id ∧
       (∀ i ∈ c4T.txIns, ∃ v ∈ c4U, v.txOutId = i.txOutId ∧ v.txOutIndex = i.txOutIndex ∧
          c4Prims.verify c4T.id i.signature (c4Prims.base58Decode v.address) = true) ∧
       (c4T.txIns.map (fun i => getTxInAmount i c4U)).sum = (c4T.txOuts.map TxOut.amount).sum)) :=
  ⟨by simp [utxoKeysUnique, c4U],
   c4_validate_transaction c4Prims c4T c4U (by simp [utxoKeysUnique, c4U])⟩

/-! ## Claim C8 -/

/-- The mempool invariant: no two pool entries share an input reference. -/
def poolInsDisjoint (pool : List Transaction) : Prop :=
  pool.Pairwise (fun t1 t2 => ∀ i1 ∈ t1.txIns, ∀ i2 ∈ t2.txIns,
    ¬ (i1.txOutId = i2.txOutId ∧ i1.txOutIndex = i2.txOutIndex))

theorem isValidTxForPool_eq_true_iff (tx : Transaction) (pool : List Transaction) :
    isValidTxForPool tx pool = true ↔
      ∀ t ∈ pool, ∀ i ∈ tx.txIns, ∀ j ∈ t.txIns,
        ¬ (i.txOutId = j.txOutId ∧ i.txOutIndex = j.txOutIndex) := by
  unfold isValidTxForPool containsTxIn getTxPoolIns
  rw [List.all_eq_true]
  constructor
  · intro h t ht i hi j hj hcon
    have hi' := h i hi
    rw [Bool.not_eq_eq_eq_not, Bool.not_true, List.any_eq_false] at hi'
    have hj' := hi' j (List.mem_flatMap.mpr ⟨t, ht, hj⟩)
    rw [decide_eq_true_eq] at hj'
    exact hj' ⟨hcon.1.symm, hcon.2.symm⟩
  · intro h i hi
    rw [Bool.not_eq_eq_eq_not, Bool.not_true, List.any_eq_false]
    intro j hj
    obtain ⟨t, ht, hjt⟩ := List.mem_flatMap.mp hj
    rw [decide_eq_true_eq]
    rintro ⟨h1, h2⟩
    exact h t ht i hi j hjt ⟨h1.symm, h2.symm⟩

/-- **C8.** The mempool admission and refresh operations preserve the
invariant that no two pool entries share an input reference:
admission returns an error exactly when `ValidateTransaction` fails or some
input of the candidate shares a `(txOutId, txOutIndex)` with an input of a
pool transaction, and in that case the pool is unchanged; the refresh after a
chain update only removes entries; and both operations map a pairwise-disjoint
pool to a pairwise-disjoint pool. -/
theorem c8_pool (P : Prims) (tx : Transaction) (u u' : List UnspentTxOut)
    (pool : List Transaction) :
    ((AddToTransactionPool P tx u pool).2.isSome = true ↔
      (ValidateTransaction P tx u = false ∨
        ∃ t ∈ pool, ∃ i ∈ tx.txIns, ∃ j ∈ t.txIns,
          i.txOutId = j.txOutId ∧ i.txOutIndex = j.txOutIndex)) ∧
    ((AddToTransactionPool P tx u pool).2.isSome = true →
      (AddToTransactionPool P tx u pool).1 = pool) ∧
    (UpdateTransactionPool u' pool).Sublist pool ∧
    (poolInsDisjoint pool → poolInsDisjoint (AddToTransactionPool P tx u pool).1) ∧
    (poolInsDisjoint pool → poolInsDisjoint (UpdateTransactionPool u' pool)) := by
  have hsub : (UpdateTransactionPool u' pool).Sublist pool := List.filter_sublist pool
  by_cases h1 : ValidateTransaction P tx u = true
  · by_cases h2 : isValidTxForPool tx pool = true
    · have hAdd : AddToTransactionPool P tx u pool = (pool ++ [tx], none) := by
        simp [AddToTransactionPool, h1, h2]
      rw [hAdd]
      refine ⟨?_, by simp, hsub, ?_, fun hd => hd.sublist hsub⟩
      · refine iff_of_false (by simp) ?_
        rintro (hf | ⟨t, ht, i, hi, j, hj, hcon⟩)
        · simp [h1] at hf
        · exact (isValidTxForPool_eq_true_iff tx pool).mp h2 t ht i hi j hj hcon
      · intro hd
        show List.Pairwise _ (pool ++ [tx])
        rw [List.pairwise_append]
        refine ⟨hd, List.pairwise_singleton _ _, ?_⟩
        intro t ht tx' htx' i1 hi1 i2 hi2 hcon
        rcases List.mem_singleton.mp htx' with rfl
        exact (isValidTxForPool_eq_true_iff tx' pool).mp h2
          t ht i2 hi2 i1 hi1 ⟨hcon.1.symm, hcon.2.symm⟩
    · have hAdd : AddToTransactionPool P tx u pool =
          (pool, some "trying to add invalid tx to pool") := by
        simp [AddToTransactionPool, h1, h2]
      rw [hAdd]
      refine ⟨?_, fun _ => rfl, hsub, fun hd => hd, fun hd => hd.sublist hsub⟩
      refine iff_of_true (by simp) (Or.inr ?_)
      have hex : ¬ ∀ t ∈ pool, ∀ i ∈ tx.txIns, ∀ j ∈ t.txIns,
          ¬ (i.txOutId = j.txOutId ∧ i.txOutIndex = j.txOutIndex) :=
        fun hall => h2 ((isValidTxForPool_eq_true_iff tx pool).mpr hall)
      push_neg at hex
      obtain ⟨t, ht, i, hi, j, hj, hcon⟩ := hex
      exact ⟨t, ht, i, hi, j, hj, hcon⟩
  · have hAdd : AddToTransactionPool P tx u pool =
        (pool, some "trying to add invalid tx to pool") := by
      simp [AddToTransactionPool, h1]
    rw [hAdd]
    refine ⟨?_, fun _ => rfl, hsub, fun hd => hd, fun hd => hd.sublist hsub⟩
    refine iff_of_true (by simp) (Or.inl ?_)
    revert h1
    cases ValidateTransaction P tx u <;> simp

/-- A one-entry pool for the C8 witness. -/
def c8Pool : List Transaction :=
  [{ id := "P1", txIns := [{ txOutId := "prev", txOutIndex := 0, signature := "s" }],
     txOuts := [{ address := "X", amount := 7 }] }]

/-- A transaction double-spending the pool entry's input, for the C8 witness. -/
def c8Tx : Transaction :=
  { id := "TID", txIns := [{ txOutId := "prev", txOutIndex := 0, signature := "s2" }],
    txOuts := [{ address := "Y", amount := 7 }] }

/-- Witness for C8 at a concrete input: the double-spending candidate is
rejected, the pool is unchanged, and disjointness is preserved. -/
theorem c8_witness :
    (AddToTransactionPool c4Prims c8Tx c4U c8Pool).2.isSome = true ∧
    (AddToTransactionPool c4Prims c8Tx c4U c8Pool).1 = c8Pool ∧
    poolInsDisjoint (AddToTransactionPool c4Prims c8Tx c4U c8Pool).1 := by
  obtain ⟨h1, h2, _, h4, _⟩ := c8_pool c4Prims c8Tx c4U c4U c8Pool
  refine ⟨?_, ?_, ?_⟩
  · exact h1.mpr (Or.inr (by simp [c8Pool, c8Tx]))
  · exact h2 (h1.mpr (Or.inr (by simp [c8Pool, c8Tx])))
  · exact h4 (by simp [poolInsDisjoint, c8Pool])

/-! ## Shared constructions for claims C1, C6 and C7

These build small concrete chains on top of the hard-coded genesis block.
They are parameterised by the primitives `P`; the only assumption the
acceptance proofs need is that `P.hashStr` maps the genesis transaction's
content to its hard-coded id (true of the real SHA-256). -/

theorem validateCoinbaseTx_getCoinbase (P : Prims) (addr : String) (i : Int) :
    validateCoinbaseTx P (GetCoinbaseTransaction P addr i) i = true := by
  simp [validateCoinbaseTx, GetCoinbaseTransaction, GetTransactionId]

theorem hashMatchesDifficulty_zero (h : String) : hashMatchesDifficulty h 0 = true := by
  simp [hashMatchesDifficulty]

/-- The unspent output produced by processing the genesis block. -/
def gUtxo : UnspentTxOut :=
  { txOutId := GenesisTransaction.id, txOutIndex := 0,
    address := "S7H2fmjGPxznuu9NPcnYCyEqdg1ebSbMN6AJRqQQo4Z1D1yQdKwEGwiJezSDka6yqHDSb2jqaf3Tewg1tryEbDzG",
    amount := 50 }

theorem processGenesis (P : Prims)
    (hg : GetTransactionId P GenesisTransaction = GenesisTransaction.id) :
    ProcessTransactions P [GenesisTransaction] [] 0 = .ok [gUtxo] := by
  have hg' : decide (GetTransactionId P GenesisTransaction = GenesisTransaction.id)
      = true := decide_eq_true hg
  simp only [GenesisTransaction] at hg'
  have hv : validateBlockTransactions P [GenesisTransaction] [] 0 = true := by
    simp [validateBlockTransactions, validateCoinbaseTx, GenesisTransaction, hg',
      hasDuplicateTxIns, txInKey]
  unfold ProcessTransactions
  rw [hv]
  simp [updateUnspentTxOuts, findUnspentTxOut, GenesisTransaction, gUtxo]

/-- The coinbase of the height-1 blocks used below. -/
def minerCoinbase (P : Prims) : Transaction := GetCoinbaseTransaction P "MINER" 1

/-- The unspent output produced by `minerCoinbase`. -/
def cbUtxo (P : Prims) : UnspentTxOut :=
  { txOutId := (minerCoinbase P).id, txOutIndex := 0, address := "MINER", amount := 50 }

theorem minerCoinbase_txIns :
    ∀ P : Prims, (minerCoinbase P).txIns
      = [{ txOutId := "", txOutIndex := 1, signature := "" }] := by
  intro P
  simp [minerCoinbase, GetCoinbaseTransaction]

theorem minerCoinbase_txOuts :
    ∀ P : Prims, (minerCoinbase P).txOuts = [{ address := "MINER", amount := 50 }] := by
  intro P
  simp [minerCoinbase, GetCoinbaseTransaction]

theorem processMinerCoinbase (P : Prims) :
    ProcessTransactions P [minerCoinbase P] [gUtxo] 1 = .ok [gUtxo, cbUtxo P] := by
  have hcb : validateCoinbaseTx P (minerCoinbase P) 1 = true := by
    unfold minerCoinbase
    exact validateCoinbaseTx_getCoinbase P "MINER" 1
  have hv : validateBlockTransactions P [minerCoinbase P] [gUtxo] 1 = true := by
    simp [validateBlockTransactions, hcb, hasDuplicateTxIns, txInKey, minerCoinbase_txIns]
  unfold ProcessTransactions
  rw [hv]
  simp [updateUnspentTxOuts, findUnspentTxOut,
    minerCoinbase_txIns, minerCoinbase_txOuts, gUtxo, cbUtxo, GenesisTransaction]

/-- A transaction with no inputs and outputs summing to zero: it passes
`ValidateTransaction` against every UTXO set (id consistent, no inputs to
check, `0 = 5 + (-5)`). -/
def zeroTxBase : Transaction :=
  { id := "", txIns := [],
    txOuts := [{ address := "ADDRA", amount := 5 }, { address := "ADDRB", amount := -5 }] }

/-- `zeroTxBase` with its id filled in. -/
def zeroTx (P : Prims) : Transaction :=
  { zeroTxBase with id := GetTransactionId P zeroTxBase }

theorem zeroTx_valid (P : Prims) (u : List UnspentTxOut) :
    ValidateTransaction P (zeroTx P) u = true := by
  simp [ValidateTransaction, zeroTx, GetTransactionId, zeroTxBase,
    totalTxInValues, totalTxOutValues]

/-- A height-1 block containing the coinbase plus two copies of `zeroTx`. -/
def dupBlockFields (P : Prims) : BlockFields :=
  { index := 1, prevHash := GenesisBlock.hash, ts := 1000,
    transactions := [minerCoinbase P, zeroTx P, zeroTx P], difficulty := 0, nonce := 0 }

/-- The block over `dupBlockFields`, with a matching hash. -/
def dupBlock (P : Prims) : Block :=
  { fields := dupBlockFields P, hash := P.hashBlock (dupBlockFields P) }

/-- The two-block chain `[genesis, dupBlock]`. -/
def dupChain (P : Prims) : List Block := [GenesisBlock, dupBlock P]

/-- The first unspent output produced by `zeroTx`. -/
def zUtxo0 (P : Prims) : UnspentTxOut :=
  { txOutId := (zeroTx P).id, txOutIndex := 0, address := "ADDRA", amount := 5 }

/-- The second unspent output produced by `zeroTx`. -/
def zUtxo1 (P : Prims) : UnspentTxOut :=
  { txOutId := (zeroTx P).id, txOutIndex := 1, address := "ADDRB", amount := -5 }

/-- The unspent set after processing `dupChain`: the key of `zUtxo0` (and of
`zUtxo1`) occurs twice. -/
def dupUtxos (P : Prims) : List UnspentTxOut :=
  [gUtxo, cbUtxo P, zUtxo0 P, zUtxo1 P, zUtxo0 P, zUtxo1 P]

theorem dupBlock_isValid (P : Prims) (c : List Block) :
    IsValidBlock P c GenesisBlock (dupBlock P) 10000 = true := by
  simp [IsValidBlock, dupBlock, dupBlockFields, GenesisBlock, timestampCheck,
    getDifficulty, hashMatchesDifficulty_zero]

theorem processDupBlock (P : Prims) :
    ProcessTransactions P (dupBlockFields P).transactions [gUtxo] 1 = .ok (dupUtxos P) := by
  have hcb : validateCoinbaseTx P (minerCoinbase P) 1 = true := by
    unfold minerCoinbase
    exact validateCoinbaseTx_getCoinbase P "MINER" 1
  have hzIns : (zeroTx P).txIns = [] := by simp [zeroTx, zeroTxBase]
  have hzOuts : (zeroTx P).txOuts
      = [{ address := "ADDRA", amount := 5 }, { address := "ADDRB", amount := -5 }] := by
    simp [zeroTx, zeroTxBase]
  have hv : validateBlockTransactions P (dupBlockFields P).transactions [gUtxo] 1 = true := by
    simp [dupBlockFields, validateBlockTransactions, hcb, hasDuplicateTxIns, txInKey,
      minerCoinbase_txIns, hzIns, zeroTx_valid]
  unfold ProcessTransactions
  rw [show (dupBlockFields P).transactions = [minerCoinbase P, zeroTx P, zeroTx P] from rfl]
    at hv ⊢
  rw [hv]
  simp [updateUnspentTxOuts, findUnspentTxOut, minerCoinbase_txIns, minerCoinbase_txOuts,
    hzIns, hzOuts, gUtxo, cbUtxo, zUtxo0, zUtxo1, dupUtxos, GenesisTransaction,
    List.enum, List.enumFrom]

theorem dupChain_accepted (P : Prims)
    (hg : GetTransactionId P GenesisTransaction = GenesisTransaction.id) :
    IsValidBlockChain P (dupChain P) 10000 = .ok (dupUtxos P) := by
  have hgen := processGenesis P hg
  have hblk := dupBlock_isValid P (dupChain P)
  have hproc := processDupBlock P
  have e1 : IsValidBlockChain P (dupChain P) 10000 =
      if GenesisBlock ≠ GenesisBlock then .error "blockchain is invalid"
      else
        exceptStep (ProcessTransactions P [GenesisTransaction] [] 0)
          (validateChainFrom P (dupChain P) 10000 [dupBlock P] GenesisBlock) := rfl
  rw [e1, if_neg (by simp), hgen, exceptStep_ok]
  have e2 : validateChainFrom P (dupChain P) 10000 [dupBlock P] GenesisBlock [gUtxo] =
      if ¬ IsValidBlock P (dupChain P) GenesisBlock (dupBlock P) 10000 = true then
        .error "blockchain is invalid"
      else
        exceptStep (ProcessTransactions P (dupBlockFields P).transactions [gUtxo] 1)
          (validateChainFrom P (dupChain P) 10000 [] (dupBlock P)) := rfl
  rw [e2, hblk, if_neg (by simp), hproc, exceptStep_ok]
  rfl

/-! ## Claim C6 -/

/-- **C6.** Refuted on the code: the two-block chain `[genesis, dupBlock]` —
where `dupBlock` carries the coinbase plus two identical copies of a
transaction with no inputs and outputs summing to zero — is accepted by
whole-chain validation for every hash primitive that maps the genesis
transaction's content to its hard-coded id (as SHA-256 does), yet the
resulting UTXO set contains the key `(zeroTx.id, 0)` at two distinct
positions: `(txOutId, txOutIndex)` pairs are not unique. -/
theorem c6_duplicate_utxo_key (P : Prims)
    (hg : GetTransactionId P GenesisTransaction = GenesisTransaction.id) :
    ∃ u, IsValidBlockChain P (dupChain P) 10000 = .ok u ∧
      ∃ vi vj, u.get? 2 = some vi ∧ u.get? 4 = some vj ∧
        vi.txOutId = vj.txOutId ∧ vi.txOutIndex = vj.txOutIndex :=
  ⟨dupUtxos P, dupChain_accepted P hg, zUtxo0 P, zUtxo0 P, rfl, rfl, rfl, rfl⟩

/-- The `%f`-formatting stand-in used by the mock primitives. -/
def mockFmtAmount (q : Rat) : String := toString q

/-- The canonical content string of the genesis transaction under
`mockFmtAmount`. -/
def mockGenesisContent : String :=
  txInsContent GenesisTransaction.txIns ++ ";" ++
    txOutsContent mockFmtAmount GenesisTransaction.txOuts

/-- Concrete mock primitives: the string hash maps the genesis content to the
hard-coded genesis id and prefixes everything else with `"HASH:"`; block
hashing is injective on (index, nonce); every signature verifies. -/
def mockPrims : Prims :=
  { hashStr := fun s =>
      if s = mockGenesisContent then GenesisTransaction.id else "HASH:" ++ s,
    hashBlock := fun f => "BH:" ++ toString f.index ++ ":" ++ toString f.nonce,
    fmtAmount := mockFmtAmount,
    verify := fun _ _ _ => true,
    base58Decode := fun s => s }

theorem mockPrims_hg :
    GetTransactionId mockPrims GenesisTransaction = GenesisTransaction.id := by
  simp [GetTransactionId, mockPrims, mockGenesisContent]

/-- Witness for C6 at the concrete mock primitives. -/
theorem c6_witness :
    ∃ u, IsValidBlockChain mockPrims (dupChain mockPrims) 10000 = .ok u ∧
      ∃ vi vj, u.get? 2 = some vi ∧ u.get? 4 = some vj ∧
        vi.txOutId = vj.txOutId ∧ vi.txOutIndex = vj.txOutIndex :=
  c6_duplicate_utxo_key mockPrims mockPrims_hg

/-! ## Claim C1 -/

/-- The coinbase-only block the local node mines at height 1. -/
def minedBlockFields (P : Prims) : BlockFields :=
  { index := 1, prevHash := GenesisBlock.hash, ts := 1000,
    transactions := [minerCoinbase P], difficulty := 0, nonce := 0 }

/-- The mined block over `minedBlockFields`. -/
def minedBlock (P : Prims) : Block :=
  { fields := minedBlockFields P, hash := P.hashBlock (minedBlockFields P) }

/-- A competing height-1 block, identical except for its nonce. -/
def rivalBlockFields (P : Prims) : BlockFields :=
  { index := 1, prevHash := GenesisBlock.hash, ts := 1000,
    transactions := [minerCoinbase P], difficulty := 0, nonce := 1 }

/-- The rival block over `rivalBlockFields`. -/
def rivalBlock (P : Prims) : Block :=
  { fields := rivalBlockFields P, hash := P.hashBlock (rivalBlockFields P) }

/-- The candidate chain `[genesis, rivalBlock]`: its cumulative difficulty
equals that of the local chain `[genesis, minedBlock]` — a tie. -/
def rivalChain (P : Prims) : List Block := [GenesisBlock, rivalBlock P]

/-- The ledger state after the fresh node appends `minedBlock`: the cached
`cumulativeBlocksDifficulty` is `2^0 = 1`, missing the genesis block's
contribution (the true cumulative difficulty of the chain is 2). -/
def stM (P : Prims) : GState :=
  { blockchain := [GenesisBlock, minedBlock P],
    cumulativeBlocksDifficulty := 1,
    unspentTxOuts := [gUtxo, cbUtxo P],
    txPool := [] }

theorem initialUnspentTxOuts_eq (P : Prims)
    (hg : GetTransactionId P GenesisTransaction = GenesisTransaction.id) :
    initialUnspentTxOuts P = [gUtxo] := by
  unfold initialUnspentTxOuts
  rw [show GenesisBlock.fields.transactions = [GenesisTransaction] from rfl,
    processGenesis P hg]

theorem minedBlock_isValid (P : Prims) :
    IsValidBlock P [GenesisBlock] GenesisBlock (minedBlock P) 10000 = true := by
  simp [IsValidBlock, minedBlock, minedBlockFields, GenesisBlock, timestampCheck,
    getDifficulty, hashMatchesDifficulty_zero]

theorem rivalBlock_isValid (P : Prims) :
    IsValidBlock P (rivalChain P) GenesisBlock (rivalBlock P) 10000 = true := by
  simp [IsValidBlock, rivalBlock, rivalBlockFields, GenesisBlock, timestampCheck,
    getDifficulty, hashMatchesDifficulty_zero]

theorem addMinedBlock (P : Prims)
    (hg : GetTransactionId P GenesisTransaction = GenesisTransaction.id) :
    AddBlockToChain P 10000 (minedBlock P) (initialState P) = (true, stM P) := by
  have hval : IsValidBlock P (initialState P).blockchain (GetLatestBlock (initialState P))
      (minedBlock P) 10000 = true := minedBlock_isValid P
  have hprocM : ProcessTransactions P (minedBlock P).fields.transactions
      (initialState P).unspentTxOuts (minedBlock P).fields.index = .ok [gUtxo, cbUtxo P] := by
    rw [show (initialState P).unspentTxOuts = initialUnspentTxOuts P from rfl,
      initialUnspentTxOuts_eq P hg]
    exact processMinerCoinbase P
  unfold AddBlockToChain
  rw [hval, if_pos rfl, hprocM]
  rfl

theorem rivalChain_accepted (P : Prims)
    (hg : GetTransactionId P GenesisTransaction = GenesisTransaction.id) :
    IsValidBlockChain P (rivalChain P) 10000 = .ok [gUtxo, cbUtxo P] := by
  have hgen := processGenesis P hg
  have hblk := rivalBlock_isValid P
  have hproc := processMinerCoinbase P
  have e1 : IsValidBlockChain P (rivalChain P) 10000 =
      if GenesisBlock ≠ GenesisBlock then .error "blockchain is invalid"
      else
        exceptStep (ProcessTransactions P [GenesisTransaction] [] 0)
          (validateChainFrom P (rivalChain P) 10000 [rivalBlock P] GenesisBlock) := rfl
  rw [e1, if_neg (by simp), hgen, exceptStep_ok]
  have e2 : validateChainFrom P (rivalChain P) 10000 [rivalBlock P] GenesisBlock [gUtxo] =
      if ¬ IsValidBlock P (rivalChain P) GenesisBlock (rivalBlock P) 10000 = true then
        .error "blockchain is invalid"
      else
        exceptStep (ProcessTransactions P [minerCoinbase P] [gUtxo] 1)
          (validateChainFrom P (rivalChain P) 10000 [] (rivalBlock P)) := rfl
  rw [e2, hblk, if_neg (by simp), hproc, exceptStep_ok]
  rfl

theorem cumDiff_rivalChain (P : Prims) : GetCumulativeDifficulty (rivalChain P) = 2 := by
  simp only [GetCumulativeDifficulty, rivalChain, GenesisBlock, rivalBlock,
    rivalBlockFields, List.foldl_cons, List.foldl_nil]
  norm_num
  decide

theorem cumDiff_localChain (P : Prims) :
    GetCumulativeDifficulty (stM P).blockchain = 2 := by
  simp only [GetCumulativeDifficulty, stM, GenesisBlock, minedBlock,
    minedBlockFields, List.foldl_cons, List.foldl_nil]
  norm_num
  decide

/-- **C1.** Refuted on the code: starting from a fresh node, appending the
mined height-1 block of difficulty 0 (`AddBlockToChain` succeeds), the local
chain's cumulative difficulty is 2 while the cached
`cumulativeBlocksDifficulty` is only 1, because the running cache never
counts the genesis block.  Offering the rival chain of cumulative
difficulty 2 — a tie with the local chain — then makes `ReplaceChain`
replace the local chain and return no error, although the claim requires a
tie to keep the local chain and return an error. -/
theorem c1_tie_replaces (P : Prims)
    (hg : GetTransactionId P GenesisTransaction = GenesisTransaction.id) :
    AddBlockToChain P 10000 (minedBlock P) (initialState P) = (true, stM P) ∧
    GetCumulativeDifficulty (rivalChain P) = GetCumulativeDifficulty (stM P).blockchain ∧
    (ReplaceChain P 10000 (rivalChain P) (stM P)).2 = none ∧
    (ReplaceChain P 10000 (rivalChain P) (stM P)).1.blockchain = rivalChain P := by
  have hrep : ReplaceChain P 10000 (rivalChain P) (stM P) =
      ({ blockchain := rivalChain P,
         cumulativeBlocksDifficulty := 2,
         unspentTxOuts := [gUtxo, cbUtxo P],
         txPool := [] }, none) := by
    unfold ReplaceChain
    rw [rivalChain_accepted P hg]
    simp [stM, cumDiff_rivalChain, UpdateTransactionPool]
  refine ⟨addMinedBlock P hg, ?_, ?_, ?_⟩
  · rw [cumDiff_rivalChain, cumDiff_localChain]
  · rw [hrep]
  · rw [hrep]

/-- Witness for C1 at the concrete mock primitives. -/
theorem c1_witness :
    AddBlockToChain mockPrims 10000 (minedBlock mockPrims) (initialState mockPrims)
      = (true, stM mockPrims) ∧
    GetCumulativeDifficulty (rivalChain mockPrims)
      = GetCumulativeDifficulty (stM mockPrims).blockchain ∧
    (ReplaceChain mockPrims 10000 (rivalChain mockPrims) (stM mockPrims)).2 = none ∧
    (ReplaceChain mockPrims 10000 (rivalChain mockPrims) (stM mockPrims)).1.blockchain
      = rivalChain mockPrims :=
  c1_tie_replaces mockPrims mockPrims_hg

/-! ## Claim C7 -/

/-- A transaction spending the first output of `zeroTx` (present twice in the
UTXO set after `dupChain`), before its id is filled in. -/
def spendTxBase : Transaction :=
  { id := "",
    txIns := [{ txOutId := (zeroTx mockPrims).id, txOutIndex := 0, signature := "SIG" }],
    txOuts := [{ address := "ADDRC", amount := 5 }] }

/-- `spendTxBase` with its id filled in. -/
def spendTx : Transaction :=
  { spendTxBase with id := GetTransactionId mockPrims spendTxBase }

/-- The coinbase of the height-2 block. -/
def spendCoinbase : Transaction := GetCoinbaseTransaction mockPrims "MINER" 2

/-- The height-2 block containing the coinbase and `spendTx`. -/
def spendBlockFields : BlockFields :=
  { index := 2, prevHash := (dupBlock mockPrims).hash, ts := 1000,
    transactions := [spendCoinbase, spendTx], difficulty := 0, nonce := 0 }

/-- The block over `spendBlockFields`. -/
def spendBlock : Block :=
  { fields := spendBlockFields, hash := mockPrims.hashBlock spendBlockFields }

/-- The three-block chain `[genesis, dupBlock, spendBlock]`. -/
def spendChain : List Block := [GenesisBlock, dupBlock mockPrims, spendBlock]

/-- The terminal UTXO set of `spendChain`: spending the duplicated key
`(zeroTx.id, 0)` removed both copies (amount 5 each) while the inputs were
only counted once, so the total amount drops to 145 instead of 150. -/
def spendUtxos : List UnspentTxOut :=
  [gUtxo, cbUtxo mockPrims, zUtxo1 mockPrims, zUtxo1 mockPrims,
   { txOutId := spendCoinbase.id, txOutIndex := 0, address := "MINER", amount := 50 },
   { txOutId := spendTx.id, txOutIndex := 0, address := "ADDRC", amount := 5 }]

/-- Total amount held in a UTXO list. -/
def sumUtxoAmounts (u : List UnspentTxOut) : Rat :=
  u.foldl (fun acc v => acc + v.amount) 0

theorem spendBlock_isValid :
    IsValidBlock mockPrims spendChain (dupBlock mockPrims) spendBlock 10000 = true := by
  simp [IsValidBlock, spendBlock, spendBlockFields, dupBlock, dupBlockFields,
    timestampCheck, getDifficulty, hashMatchesDifficulty_zero, sub64]

theorem zeroTx_mock_id : (zeroTx mockPrims).id = "HASH:;ADDRA;5ADDRB;-5" := rfl

theorem minerCoinbase_mock_id : (minerCoinbase mockPrims).id = "HASH:;1;MINER;50" := rfl

theorem spendCoinbase_id_eval : spendCoinbase.id = "HASH:;2;MINER;50" := rfl

theorem spendTx_id_eval : spendTx.id = "HASH:HASH:;ADDRA;5ADDRB;-5;0;ADDRC;5" := rfl

theorem spendTx_getId_eval :
    GetTransactionId mockPrims spendTx = "HASH:HASH:;ADDRA;5ADDRB;-5;0;ADDRC;5" := rfl

/-- `dupUtxos mockPrims` with every transaction id evaluated to its literal. -/
theorem dupUtxos_mock_eval : dupUtxos mockPrims =
    [{ txOutId := GenesisTransaction.id, txOutIndex := 0,
       address := "S7H2fmjGPxznuu9NPcnYCyEqdg1ebSbMN6AJRqQQo4Z1D1yQdKwEGwiJezSDka6yqHDSb2jqaf3Tewg1tryEbDzG",
       amount := 50 },
     { txOutId := "HASH:;1;MINER;50", txOutIndex := 0, address := "MINER", amount := 50 },
     { txOutId := "HASH:;ADDRA;5ADDRB;-5", txOutIndex := 0, address := "ADDRA", amount := 5 },
     { txOutId := "HASH:;ADDRA;5ADDRB;-5", txOutIndex := 1, address := "ADDRB", amount := -5 },
     { txOutId := "HASH:;ADDRA;5ADDRB;-5", txOutIndex := 0, address := "ADDRA", amount := 5 },
     { txOutId := "HASH:;ADDRA;5ADDRB;-5", txOutIndex := 1, address := "ADDRB", amount := -5 }] := rfl

theorem spendTx_txIns_eval : spendTx.txIns
    = [{ txOutId := "HASH:;ADDRA;5ADDRB;-5", txOutIndex := 0, signature := "SIG" }] := rfl

theorem spendTx_txOuts_eval : spendTx.txOuts = [{ address := "ADDRC", amount := 5 }] := rfl

theorem spendTx_valid :
    ValidateTransaction mockPrims spendTx (dupUtxos mockPrims) = true := by
  have hin : totalTxInValues spendTx (dupUtxos mockPrims) = 0 + 5 := by
    simp only [totalTxInValues, spendTx_txIns_eval, dupUtxos_mock_eval,
      List.foldl_cons, List.foldl_nil]
    simp [getTxInAmount, findUnspentTxOut, GenesisTransaction]
  have hout : totalTxOutValues spendTx = 0 + 5 := by
    simp only [totalTxOutValues, spendTx_txOuts_eval, List.foldl_cons, List.foldl_nil]
  unfold ValidateTransaction
  rw [hin, hout]
  simp only [spendTx_getId_eval, spendTx_id_eval, spendTx_txIns_eval, dupUtxos_mock_eval]
  simp [validateTxIn, findUnspentTxOut, mockPrims, GenesisTransaction]

theorem processSpendBlock :
    ProcessTransactions mockPrims spendBlockFields.transactions (dupUtxos mockPrims) 2
      = .ok spendUtxos := by
  have hcb : validateCoinbaseTx mockPrims spendCoinbase 2 = true := by decide
  have hdup : hasDuplicateTxIns
      ([spendCoinbase, spendTx].flatMap (fun t => t.txIns)) = false := by decide
  have hv : validateBlockTransactions mockPrims [spendCoinbase, spendTx]
      (dupUtxos mockPrims) 2 = true := by
    have e : validateBlockTransactions mockPrims [spendCoinbase, spendTx]
        (dupUtxos mockPrims) 2 =
        (validateCoinbaseTx mockPrims spendCoinbase 2 &&
         ! hasDuplicateTxIns ([spendCoinbase, spendTx].flatMap (fun t => t.txIns)) &&
         [spendTx].all (fun t => ValidateTransaction mockPrims t (dupUtxos mockPrims))) := rfl
    rw [e, hcb, hdup]
    simp [spendTx_valid]
  have hupd : updateUnspentTxOuts [spendCoinbase, spendTx] (dupUtxos mockPrims)
      = spendUtxos := by decide
  unfold ProcessTransactions
  rw [show spendBlockFields.transactions = [spendCoinbase, spendTx] from rfl, hv]
  simp [hupd]

theorem spendChain_accepted :
    IsValidBlockChain mockPrims spendChain 10000 = .ok spendUtxos := by
  have hgen := processGenesis mockPrims mockPrims_hg
  have hblk1 := dupBlock_isValid mockPrims spendChain
  have hproc1 := processDupBlock mockPrims
  have e1 : IsValidBlockChain mockPrims spendChain 10000 =
      if GenesisBlock ≠ GenesisBlock then .error "blockchain is invalid"
      else
        exceptStep (ProcessTransactions mockPrims [GenesisTransaction] [] 0)
          (validateChainFrom mockPrims spendChain 10000 [dupBlock mockPrims, spendBlock]
            GenesisBlock) := rfl
  rw [e1, if_neg (by simp), hgen, exceptStep_ok]
  have e2 : validateChainFrom mockPrims spendChain 10000 [dupBlock mockPrims, spendBlock]
        GenesisBlock [gUtxo] =
      if ¬ IsValidBlock mockPrims spendChain GenesisBlock (dupBlock mockPrims) 10000
          = true then .error "blockchain is invalid"
      else
        exceptStep
          (ProcessTransactions mockPrims (dupBlockFields mockPrims).transactions [gUtxo] 1)
          (validateChainFrom mockPrims spendChain 10000 [spendBlock]
            (dupBlock mockPrims)) := rfl
  rw [e2, hblk1, if_neg (by simp), hproc1, exceptStep_ok]
  have e3 : validateChainFrom mockPrims spendChain 10000 [spendBlock] (dupBlock mockPrims)
        (dupUtxos mockPrims) =
      if ¬ IsValidBlock mockPrims spendChain (dupBlock mockPrims) spendBlock 10000
          = true then .error "blockchain is invalid"
      else
        exceptStep
          (ProcessTransactions mockPrims spendBlockFields.transactions
            (dupUtxos mockPrims) 2)
          (validateChainFrom mockPrims spendChain 10000 [] spendBlock) := rfl
  rw [e3, spendBlock_isValid, if_neg (by simp), processSpendBlock, exceptStep_ok]
  rfl

/-- **C7.** Refuted on the code: the three-block chain `spendChain` (genesis,
then a block carrying two identical zero-input transactions, then a block
spending the duplicated output once) is accepted by whole-chain validation,
but the amounts in the terminal UTXO set sum to 145, not
`50 · |C| = 150`. -/
theorem c7_sum_violated :
    IsValidBlockChain mockPrims spendChain 10000 = .ok spendUtxos ∧
    spendChain.length = 3 ∧
    sumUtxoAmounts spendUtxos ≠ 50 * (spendChain.length : Rat) := by
  refine ⟨spendChain_accepted, rfl, ?_⟩
  norm_num [sumUtxoAmounts, spendUtxos, spendChain, gUtxo, cbUtxo, zUtxo1]

end Naivecoin
